import Mathlib

/-!
# Verification of the resource-pressure management core (src/main.js)

Shallow embedding of the AR resource-pressure engine: the Reclaimer
(`performCleanup`), the Coordinator state (`AROptimizer`'s `errorCount` /
`isProcessing` fields) and the trigger handlers installed by
`setupAutoCleanup`, `setupErrorHandling`, `setupMemoryMonitoring` and the
`visibilitychange` / `beforeunload` / `pagehide` listeners.

Modelling choices:
* The external world (DOM scene, renderer, GL context, texture registry,
  `window.gc`, the MindAR system, and the video elements) is a `World`
  record of presence flags and per-object failure flags.
* Side effects are recorded as a trace of `Ev` events in issuance order;
  `setTimeout` registrations are recorded as `(delayMs, Task)` pairs in a
  `scheduled` list, and a scheduled callback's later execution is modelled
  by `runTask` (whose `Bool` result is `false` when an error escapes the
  callback uncaught).
* `performCleanup` is a plain synchronous function in the source; a throw
  from an unprotected step (a texture `dispose()`) propagates out of it
  before the final `return Promise.resolve()` is reached.  This is modelled
  by the `ok` flag of `CleanupResult`: `ok = false` means the function threw
  synchronously, and the trace holds only the events issued before the
  throw.  The returned promise itself never rejects.
* JS numbers in the heap comparison are modelled as exact rationals.
-/

namespace BookScan

/-- `setInterval` period of the light-cleanup timer (ms), from `setupAutoCleanup`. -/
def lightTimerIntervalMs : Nat := 120000

/-- `setInterval` period of the full-cleanup timer (ms), from `setupAutoCleanup`. -/
def fullTimerIntervalMs : Nat := 600000

/-- `setInterval` period of the heap sampler (ms), from `setupMemoryMonitoring`. -/
def heapPollIntervalMs : Nat := 30000

/-- `setTimeout` delay of the errorCount decay (ms), from `setupErrorHandling`. -/
def errorDecayDelayMs : Nat := 300000

/-- `setTimeout` delay before a cleared video source is restored (ms). -/
def mediaRestoreDelayMs : Nat := 100

/-- `setTimeout` delay before the stopped AR system is started again (ms). -/
def trackingRestartDelayMs : Nat := 1000

/-- A video element: `paused`, `src` and `currentTime` attributes. -/
structure Video where
  paused : Bool
  src : String
  currentTime : Nat
deriving DecidableEq, Repr

/-- A texture object in `renderer.info.memory.textures`: whether it has a
`dispose` method, and whether calling `dispose()` throws. -/
structure Texture where
  hasDispose : Bool
  disposeThrows : Bool
deriving DecidableEq, Repr

/-- Observable side effects issued by the Reclaimer, in issuance order.
Events in the trace happen at pass time; `restoreSrc` and `arStart` are
issued later by scheduled tasks (see `Task` and `runTask`). -/
inductive Ev where
  | pauseVideo (i : Nat)
  | resetTime (i : Nat)
  | clearSrc (i : Nat)
  | loadVideo (i : Nat)
  | restoreSrc (i : Nat) (src : String)
  | disposeTex (i : Nat)
  | activeTexture (u : Nat)
  | unbindTex2D (u : Nat)
  | unbindCubeMap (u : Nat)
  | unbindArrayBuffer
  | unbindElementArrayBuffer
  | unbindRenderbuffer
  | unbindFramebuffer
  | gcCall
  | gcWarn
  | arStop
  | arStart
  | arWarn
deriving DecidableEq, Repr

/-- A `setTimeout` callback registered by the code: the delayed restore of a
video source, the delayed `arSystem.start()`, or the errorCount decay. -/
inductive Task where
  | restoreSrc (i : Nat) (src : String)
  | arStart
  | errorDecay
deriving DecidableEq, Repr

/-- The external environment the Reclaimer reads: presence of the scene,
renderer, GL context, `window.gc` and the AR system, the texture registry,
the video elements, and per-call failure flags. -/
structure World where
  sceneExists : Bool
  rendererExists : Bool
  glExists : Bool
  texturesIsArray : Bool
  textures : List Texture
  numTextureUnits : Nat
  gcExists : Bool
  gcThrows : Bool
  arSystemExists : Bool
  stopThrows : Bool
  startThrows : Bool
  videos : List Video
deriving DecidableEq, Repr

/-- Result of one `performCleanup` call: the requested level, the events
issued before returning (or before a synchronous throw), the `setTimeout`
registrations made, the video states on exit, and `ok = false` exactly when
the function threw synchronously instead of returning its promise. -/
structure CleanupResult where
  full : Bool
  trace : List Ev
  scheduled : List (Nat × Task)
  videos : List Video
  ok : Bool
deriving DecidableEq, Repr

/-- The mutable Coordinator state on `AROptimizer`: `errorCount` and the
in-flight guard `isProcessing`.  (`lastCleanup` is written at construction
and never read, so it is omitted.) -/
structure OptState where
  errorCount : Int
  isProcessing : Bool
deriving DecidableEq, Repr

/-- One iteration of the `videos.forEach` body for the video at index `i`:
a playing video is paused, its position reset and, at full level, its source
cleared, `load()` called and a delayed restore scheduled; a paused video is
skipped entirely. -/
def cleanVideo (fullCleanup : Bool) (i : Nat) (v : Video) :
    List Ev × List (Nat × Task) × Video :=
  if v.paused then ([], [], v)
  else if fullCleanup then
    ([Ev.pauseVideo i, Ev.resetTime i, Ev.clearSrc i, Ev.loadVideo i],
     [(mediaRestoreDelayMs, Task.restoreSrc i v.src)],
     { v with paused := true, currentTime := 0, src := "" })
  else
    ([Ev.pauseVideo i, Ev.resetTime i], [],
     { v with paused := true, currentTime := 0 })

/-- The `videos.forEach` loop, starting at index `i`: concatenated events and
scheduled tasks, and the updated video list. -/
def cleanVideos (fullCleanup : Bool) : Nat → List Video →
    List Ev × List (Nat × Task) × List Video
  | _, [] => ([], [], [])
  | i, v :: vs =>
    let h := cleanVideo fullCleanup i v
    let r := cleanVideos fullCleanup (i + 1) vs
    (h.1 ++ r.1, h.2.1 ++ r.2.1, h.2.2 :: r.2.2)

/-- The `textures.forEach` dispose loop, starting at index `i`.  `dispose()`
is called on every texture that has one; the loop body is not wrapped in any
try/catch, so a throwing `dispose()` aborts the loop (and, transitively, the
rest of `performCleanup`): the `Bool` is `false` when that happened. -/
def disposeTextures : Nat → List Texture → List Ev × Bool
  | _, [] => ([], true)
  | i, t :: ts =>
    if t.hasDispose then
      if t.disposeThrows then ([], false)
      else
        let r := disposeTextures (i + 1) ts
        (Ev.disposeTex i :: r.1, r.2)
    else disposeTextures (i + 1) ts

/-- Per texture unit: `gl.activeTexture` then unbinding the 2D and cube-map
targets. -/
def unbindUnit (u : Nat) : List Ev :=
  [Ev.activeTexture u, Ev.unbindTex2D u, Ev.unbindCubeMap u]

/-- The `if (gl)` block: unbind every texture unit up to the maximum, then
the array/element-array buffers, the renderbuffer and the framebuffer. -/
def unbindEvents (n : Nat) : List Ev :=
  ((List.range n).flatMap unbindUnit) ++
    [Ev.unbindArrayBuffer, Ev.unbindElementArrayBuffer,
     Ev.unbindRenderbuffer, Ev.unbindFramebuffer]

/-- The `if (scene?.renderer)` block: texture disposal (only when
`renderer.info.memory.textures` is actually an array), GL unbinding (only
when `getContext()` yielded a context), then the `window.gc` hint — the gc
call sits inside this renderer block in the source, and only the gc call is
wrapped in a try/catch (a throw is logged as a warning).  The `Bool` is
`false` when a texture `dispose()` threw, in which case everything after the
dispose loop is skipped. -/
def glCleanup (w : World) : List Ev × Bool :=
  let d := if w.texturesIsArray then disposeTextures 0 w.textures else ([], true)
  if d.2 then
    let u := if w.glExists then unbindEvents w.numTextureUnits else []
    let g := if w.gcExists then
        (if w.gcThrows then [Ev.gcCall, Ev.gcWarn] else [Ev.gcCall])
      else []
    (d.1 ++ u ++ g, true)
  else (d.1, false)

/-- The `if (fullCleanup && arSystem)` block: `arSystem.stop()` and the
registration of the delayed `arSystem.start()` are inside a try/catch, so a
throwing `stop()` is caught and logged and the restart is never scheduled.
Note the try/catch covers only the *registration* of the start timeout; the
callback itself runs later (see `runTask`). -/
def arCleanup (fullCleanup : Bool) (w : World) :
    List Ev × List (Nat × Task) :=
  if fullCleanup && w.sceneExists && w.arSystemExists then
    if w.stopThrows then ([Ev.arWarn], [])
    else ([Ev.arStop], [(trackingRestartDelayMs, Task.arStart)])
  else ([], [])

/-- `performCleanup(fullCleanup)` from src/main.js: video cleanup, then the
renderer block (textures, GL unbinding, gc hint), then the AR-system block,
then `return Promise.resolve()`.  A synchronous throw from the unprotected
texture-dispose loop escapes before that return: `ok = false`, the AR block
is skipped, and only the events issued so far are in the trace. -/
def performCleanup (fullCleanup : Bool) (w : World) : CleanupResult :=
  let m := cleanVideos fullCleanup 0 w.videos
  if w.sceneExists && w.rendererExists then
    let g := glCleanup w
    if g.2 then
      let a := arCleanup fullCleanup w
      { full := fullCleanup, trace := m.1 ++ g.1 ++ a.1,
        scheduled := m.2.1 ++ a.2, videos := m.2.2, ok := true }
    else
      { full := fullCleanup, trace := m.1 ++ g.1,
        scheduled := m.2.1, videos := m.2.2, ok := false }
  else
    let a := arCleanup fullCleanup w
    { full := fullCleanup, trace := m.1 ++ a.1,
      scheduled := m.2.1 ++ a.2, videos := m.2.2, ok := true }

/-- The body of the two `setupAutoCleanup` interval callbacks (light:
`fullCleanup = false`, full: `fullCleanup = true`): if the document is
visible and no pass is in flight, set `isProcessing`, run `performCleanup`
and clear the guard in a `.finally` on the returned promise.  The promise
never rejects, but a synchronous throw from `performCleanup` escapes before
`.finally` is attached, leaving `isProcessing` stuck at `true`. -/
def guardedPass (fullCleanup hidden : Bool) (w : World) (s : OptState) :
    OptState × Option CleanupResult :=
  if !hidden && !s.isProcessing then
    let r := performCleanup fullCleanup w
    ({ s with isProcessing := !r.ok }, some r)
  else (s, none)

/-- `usedJSHeapSize > jsHeapSizeLimit * 0.8`, with JS numbers as exact
rationals (the claim's sample ratios are far from double-rounding
boundaries, so the exact model agrees with the JS comparison there). -/
def heapOver (used limit : ℚ) : Bool := decide (limit * 0.8 < used)

/-- The heap sampler from `setupMemoryMonitoring`.  The sampler is armed only
when the host exposes `performance.memory` (modelled by `tele = some _`);
each tick reads used/limit and, when the ratio is over 0.8 and no pass is in
flight, runs a full pass under the same guard discipline as the timers. -/
def heapTick (tele : Option (ℚ × ℚ)) (w : World) (s : OptState) :
    OptState × Option CleanupResult :=
  match tele with
  | none => (s, none)
  | some (used, limit) =>
    if heapOver used limit then
      if !s.isProcessing then
        let r := performCleanup true w
        ({ s with isProcessing := !r.ok }, some r)
      else (s, none)
    else (s, none)

/-- The `arError` listener from `setupErrorHandling` (armed when a scene
exists at `initialize` time).  It increments `errorCount`, awaits a full pass
(and resets the count) when the incremented count exceeds 3, otherwise a
light pass, and then registers the 300 s decay timeout.  It never touches
`isProcessing`.  Because the handler is `async`, a synchronous throw from
`performCleanup` rejects the handler's promise: the reset and the decay
registration after the failed `await` are skipped. -/
def arErrorTick (w : World) (s : OptState) :
    OptState × CleanupResult × List (Nat × Task) :=
  let c := s.errorCount + 1
  if c > 3 then
    let r := performCleanup true w
    if r.ok then
      ({ s with errorCount := 0 }, r, [(errorDecayDelayMs, Task.errorDecay)])
    else ({ s with errorCount := c }, r, [])
  else
    let r := performCleanup false w
    if r.ok then
      ({ s with errorCount := c }, r, [(errorDecayDelayMs, Task.errorDecay)])
    else ({ s with errorCount := c }, r, [])

/-- The `visibilitychange` listener: when the document became hidden, call
`performCleanup(true)` directly — no guard check, no guard update. -/
def visibilityTick (hidden : Bool) (w : World) (s : OptState) :
    OptState × Option CleanupResult :=
  if hidden then (s, some (performCleanup true w)) else (s, none)

/-- The `beforeunload` and `pagehide` listeners: unconditionally call
`performCleanup(true)` — no guard check, no guard update. -/
def beforeunloadTick (w : World) (s : OptState) : OptState × CleanupResult :=
  (s, performCleanup true w)

/-- Later execution of a registered `setTimeout` callback.  The `Bool` is
`false` when an error escapes the callback uncaught: the delayed
`arSystem.start()` runs outside the try/catch of `performCleanup` (which
returned long before), so a throwing `start()` is uncaught.  The decay
callback sets `errorCount = Math.max(0, errorCount - 1)`. -/
def runTask (w : World) (s : OptState) : Task → OptState × List Ev × Bool
  | Task.restoreSrc i src => (s, [Ev.restoreSrc i src], true)
  | Task.arStart =>
    if w.startThrows then (s, [], false) else (s, [Ev.arStart], true)
  | Task.errorDecay =>
    ({ s with errorCount := max 0 (s.errorCount - 1) }, [], true)

/-- A pressure signal deliverable on the single event-driven timeline,
including the later firing of a registered timeout. -/
inductive Sig where
  | lightTimer (hidden : Bool)
  | fullTimer (hidden : Bool)
  | heapSample (tele : Option (ℚ × ℚ))
  | trackingError
  | visibilityChange (hidden : Bool)
  | sessionEnd
  | delayedTask (t : Task)

/-- State transition of the Coordinator under one signal. -/
def stepSig (w : World) (s : OptState) : Sig → OptState
  | Sig.lightTimer h => (guardedPass false h w s).1
  | Sig.fullTimer h => (guardedPass true h w s).1
  | Sig.heapSample tele => (heapTick tele w s).1
  | Sig.trackingError => (arErrorTick w s).1
  | Sig.visibilityChange h => (visibilityTick h w s).1
  | Sig.sessionEnd => (beforeunloadTick w s).1
  | Sig.delayedTask t => (runTask w s t).1

/-- State after a whole sequence of signals. -/
def runSigs (w : World) (s : OptState) : List Sig → OptState
  | [] => s
  | g :: gs => runSigs w (stepSig w s g) gs

/-- No texture `dispose()` throws: the only way `performCleanup` can throw
synchronously in the model. -/
def noThrow (w : World) : Prop := ∀ t ∈ w.textures, t.disposeThrows = false

instance (w : World) : Decidable (noThrow w) :=
  inferInstanceAs (Decidable (∀ t ∈ w.textures, t.disposeThrows = false))

/-- Events of step 1/2 of the Reclaimer (media handling). -/
def isMediaEv : Ev → Bool
  | Ev.pauseVideo _ => true
  | Ev.resetTime _ => true
  | Ev.clearSrc _ => true
  | Ev.loadVideo _ => true
  | _ => false

/-- Events of step 3 of the Reclaimer (texture disposal and GL unbinding). -/
def isGlEv : Ev → Bool
  | Ev.disposeTex _ => true
  | Ev.activeTexture _ => true
  | Ev.unbindTex2D _ => true
  | Ev.unbindCubeMap _ => true
  | Ev.unbindArrayBuffer => true
  | Ev.unbindElementArrayBuffer => true
  | Ev.unbindRenderbuffer => true
  | Ev.unbindFramebuffer => true
  | _ => false

/-- Does an event read or write the video element at index `i`? -/
def touchesVideo (i : Nat) : Ev → Bool
  | Ev.pauseVideo j => j == i
  | Ev.resetTime j => j == i
  | Ev.clearSrc j => j == i
  | Ev.loadVideo j => j == i
  | Ev.restoreSrc j _ => j == i
  | _ => false

/-- Does a scheduled task target the video element at index `i`? -/
def taskTouchesVideo (i : Nat) : Task → Bool
  | Task.restoreSrc j _ => j == i
  | _ => false

/-- A host with none of the optional collaborators and no media. -/
def emptyWorld : World :=
  { sceneExists := false, rendererExists := false, glExists := false,
    texturesIsArray := false, textures := [], numTextureUnits := 0,
    gcExists := false, gcThrows := false, arSystemExists := false,
    stopThrows := false, startThrows := false, videos := [] }

/-- A fully equipped host: scene, renderer, GL context, one disposable
texture, gc hint, AR system, and one playing video. -/
def richWorld : World :=
  { sceneExists := true, rendererExists := true, glExists := true,
    texturesIsArray := true, textures := [{ hasDispose := true, disposeThrows := false }],
    numTextureUnits := 2, gcExists := true, gcThrows := false,
    arSystemExists := true, stopThrows := false, startThrows := false,
    videos := [{ paused := false, src := "blob:cam0", currentTime := 7 }] }

/-- `richWorld` with a texture whose `dispose()` throws. -/
def throwWorld : World :=
  { richWorld with
    textures := [{ hasDispose := true, disposeThrows := true }] }

theorem disposeTextures_ok (ts : List Texture)
    (h : ∀ t ∈ ts, t.disposeThrows = false) :
    ∀ i, (disposeTextures i ts).2 = true := by
  induction ts with
  | nil => intro i; rfl
  | cons t ts ih =>
    intro i
    have ht := h t (List.mem_cons_self t ts)
    have h' : ∀ u ∈ ts, u.disposeThrows = false :=
      fun u hu => h u (List.mem_cons_of_mem _ hu)
    by_cases hd : t.hasDispose <;>
      simp [disposeTextures, hd, ht, ih h' (i + 1)]

theorem glCleanup_ok (w : World) (h : noThrow w) : (glCleanup w).2 = true := by
  unfold glCleanup
  by_cases ha : w.texturesIsArray <;>
    simp [ha, disposeTextures_ok w.textures h 0]

theorem performCleanup_ok (f : Bool) (w : World) (h : noThrow w) :
    (performCleanup f w).ok = true := by
  unfold performCleanup
  cases hs : w.sceneExists && w.rendererExists <;>
    simp [hs, glCleanup_ok w h]

theorem cleanVideo_media (f : Bool) (i : Nat) (v : Video) :
    ∀ e ∈ (cleanVideo f i v).1, isMediaEv e = true := by
  unfold cleanVideo
  by_cases hp : v.paused <;> by_cases hf : f <;>
    simp [hp, hf, isMediaEv]

theorem cleanVideos_media (f : Bool) :
    ∀ (vs : List Video) (i : Nat), ∀ e ∈ (cleanVideos f i vs).1, isMediaEv e = true := by
  intro vs
  induction vs with
  | nil => intro i e he; simp [cleanVideos] at he
  | cons v vs ih =>
    intro i e he
    simp only [cleanVideos, List.mem_append] at he
    rcases he with he | he
    · exact cleanVideo_media f i v e he
    · exact ih (i + 1) e he

theorem cleanVideo_tasks (f : Bool) (i : Nat) (v : Video) :
    ∀ p ∈ (cleanVideo f i v).2.1,
      p.1 = mediaRestoreDelayMs ∧ ∃ j s, p.2 = Task.restoreSrc j s := by
  unfold cleanVideo
  by_cases hp : v.paused <;> by_cases hf : f <;> simp [hp, hf]

theorem cleanVideos_tasks (f : Bool) :
    ∀ (vs : List Video) (i : Nat), ∀ p ∈ (cleanVideos f i vs).2.1,
      p.1 = mediaRestoreDelayMs ∧ ∃ j s, p.2 = Task.restoreSrc j s := by
  intro vs
  induction vs with
  | nil => intro i p hp; simp [cleanVideos] at hp
  | cons v vs ih =>
    intro i p hp
    simp only [cleanVideos, List.mem_append] at hp
    rcases hp with hp | hp
    · exact cleanVideo_tasks f i v p hp
    · exact ih (i + 1) p hp

theorem disposeTextures_events (ts : List Texture) :
    ∀ i, ∀ e ∈ (disposeTextures i ts).1, ∃ j, e = Ev.disposeTex j := by
  induction ts with
  | nil => intro i e he; simp [disposeTextures] at he
  | cons t ts ih =>
    intro i e he
    by_cases hd : t.hasDispose
    · by_cases hx : t.disposeThrows
      · simp [disposeTextures, hd, hx] at he
      · simp only [disposeTextures, hd, hx, if_true, if_false, Bool.false_eq_true,
          List.mem_cons] at he
        rcases he with he | he
        · exact ⟨i, he⟩
        · exact ih (i + 1) e he
    · simp only [disposeTextures, hd, if_false, Bool.false_eq_true] at he
      exact ih (i + 1) e he

theorem unbindEvents_gl (n : Nat) : ∀ e ∈ unbindEvents n, isGlEv e = true := by
  intro e he
  simp only [unbindEvents, List.mem_append, List.mem_flatMap, List.mem_range,
    unbindUnit, List.mem_cons, List.not_mem_nil, or_false] at he
  rcases he with ⟨u, _, he | he | he⟩ | he | he | he | he <;>
    subst he <;> rfl

theorem glCleanup_events (w : World) :
    ∀ e ∈ (glCleanup w).1, isGlEv e = true ∨ e = Ev.gcCall ∨ e = Ev.gcWarn := by
  intro e he
  have hunbind : ∀ x ∈ (if w.glExists then unbindEvents w.numTextureUnits
      else ([] : List Ev)), isGlEv x = true := by
    intro x hx
    by_cases hg : w.glExists = true
    · rw [if_pos hg] at hx; exact unbindEvents_gl w.numTextureUnits x hx
    · rw [if_neg hg] at hx; simp at hx
  have hgc : ∀ x ∈ (if w.gcExists then
      (if w.gcThrows then [Ev.gcCall, Ev.gcWarn] else [Ev.gcCall])
      else ([] : List Ev)), x = Ev.gcCall ∨ x = Ev.gcWarn := by
    intro x hx
    by_cases hg : w.gcExists = true
    · rw [if_pos hg] at hx
      by_cases ht : w.gcThrows = true
      · rw [if_pos ht] at hx; simp at hx; tauto
      · rw [if_neg ht] at hx; simp at hx; tauto
    · rw [if_neg hg] at hx; simp at hx
  unfold glCleanup at he
  by_cases ha : w.texturesIsArray = true
  · by_cases hk : (disposeTextures 0 w.textures).2 = true
    · rw [if_pos ha, if_pos hk] at he
      dsimp only at he
      simp only [List.mem_append] at he
      rcases he with (he | he) | he
      · obtain ⟨j, hj⟩ := disposeTextures_events w.textures 0 e he
        subst hj; exact Or.inl rfl
      · exact Or.inl (hunbind e he)
      · exact Or.inr (hgc e he)
    · rw [if_pos ha, if_neg hk] at he
      dsimp only at he
      obtain ⟨j, hj⟩ := disposeTextures_events w.textures 0 e he
      subst hj; exact Or.inl rfl
  · rw [if_neg ha] at he
    dsimp only at he
    rw [if_pos rfl] at he
    dsimp only at he
    simp only [List.nil_append, List.mem_append] at he
    rcases he with he | he
    · exact Or.inl (hunbind e he)
    · exact Or.inr (hgc e he)

theorem arCleanup_events (f : Bool) (w : World) :
    ∀ e ∈ (arCleanup f w).1, e = Ev.arStop ∨ e = Ev.arWarn := by
  intro e he
  unfold arCleanup at he
  by_cases hc : (f && w.sceneExists && w.arSystemExists : Bool)
  · by_cases hst : w.stopThrows <;> simp [hc, hst] at he <;> tauto
  · simp [hc] at he

theorem arCleanup_tasks (f : Bool) (w : World) :
    ∀ p ∈ (arCleanup f w).2, p = (trackingRestartDelayMs, Task.arStart) := by
  intro p hp
  unfold arCleanup at hp
  by_cases hc : (f && w.sceneExists && w.arSystemExists : Bool)
  · by_cases hst : w.stopThrows <;> simp [hc, hst] at hp
    exact hp
  · simp [hc] at hp

theorem touchesVideo_of_isGlEv (i : Nat) (e : Ev) (h : isGlEv e = true) :
    touchesVideo i e = false := by
  cases e <;> simp_all [isGlEv, touchesVideo]

theorem touchesVideo_glCleanup (w : World) (i : Nat) :
    ∀ e ∈ (glCleanup w).1, touchesVideo i e = false := by
  intro e he
  rcases glCleanup_events w e he with h | h | h
  · exact touchesVideo_of_isGlEv i e h
  · subst h; rfl
  · subst h; rfl

theorem touchesVideo_arCleanup (f : Bool) (w : World) (i : Nat) :
    ∀ e ∈ (arCleanup f w).1, touchesVideo i e = false := by
  intro e he
  rcases arCleanup_events f w e he with h | h <;> subst h <;> rfl

theorem cleanVideo_touches (f : Bool) (j k : Nat) (v : Video) (hjk : j ≠ k) :
    (∀ e ∈ (cleanVideo f j v).1, touchesVideo k e = false) ∧
    (∀ p ∈ (cleanVideo f j v).2.1, taskTouchesVideo k p.2 = false) := by
  unfold cleanVideo
  by_cases hp : v.paused = true <;> by_cases hf : f = true <;>
    simp [hp, hf, touchesVideo, taskTouchesVideo, hjk]

theorem cleanVideos_touches_lt (f : Bool) :
    ∀ (vs : List Video) (j k : Nat), k < j →
      (∀ e ∈ (cleanVideos f j vs).1, touchesVideo k e = false) ∧
      (∀ p ∈ (cleanVideos f j vs).2.1, taskTouchesVideo k p.2 = false) := by
  intro vs
  induction vs with
  | nil =>
    intro j k _
    exact ⟨fun e he => by simp [cleanVideos] at he,
      fun p hp => by simp [cleanVideos] at hp⟩
  | cons v vs ih =>
    intro j k hk
    have hjk : j ≠ k := by omega
    have hhead := cleanVideo_touches f j k v hjk
    have htail := ih (j + 1) k (by omega)
    constructor
    · intro e he
      simp only [cleanVideos, List.mem_append] at he
      rcases he with he | he
      · exact hhead.1 e he
      · exact htail.1 e he
    · intro p hp
      simp only [cleanVideos, List.mem_append] at hp
      rcases hp with hp | hp
      · exact hhead.2 p hp
      · exact htail.2 p hp

theorem cleanVideos_index (f : Bool) :
    ∀ (vs : List Video) (j i : Nat) (v : Video),
      vs[i]? = some v → v.paused = true →
      (cleanVideos f j vs).2.2[i]? = some v ∧
      (∀ e ∈ (cleanVideos f j vs).1, touchesVideo (j + i) e = false) ∧
      (∀ p ∈ (cleanVideos f j vs).2.1, taskTouchesVideo (j + i) p.2 = false) := by
  intro vs
  induction vs with
  | nil => intro j i v hv _; simp at hv
  | cons v0 vs ih =>
    intro j i v hv hp
    cases i with
    | zero =>
      rw [List.getElem?_cons_zero] at hv
      injection hv with hv0
      subst hv0
      have htail := cleanVideos_touches_lt f vs (j + 1) (j + 0) (by omega)
      refine ⟨by simp [cleanVideos, cleanVideo, hp], ?_, ?_⟩
      · intro e he
        simp only [cleanVideos, List.mem_append] at he
        rcases he with he | he
        · simp [cleanVideo, hp] at he
        · exact htail.1 e he
      · intro p hq
        simp only [cleanVideos, List.mem_append] at hq
        rcases hq with hq | hq
        · simp [cleanVideo, hp] at hq
        · exact htail.2 p hq
    | succ i =>
      rw [List.getElem?_cons_succ] at hv
      have hrec := ih (j + 1) i v hv hp
      have hjk : j ≠ j + (i + 1) := by omega
      have hhead := cleanVideo_touches f j (j + (i + 1)) v0 hjk
      have hidx : (j + 1) + i = j + (i + 1) := by omega
      rw [hidx] at hrec
      refine ⟨?_, ?_, ?_⟩
      · simpa [cleanVideos, List.getElem?_cons_succ] using hrec.1
      · intro e he
        simp only [cleanVideos, List.mem_append] at he
        rcases he with he | he
        · exact hhead.1 e he
        · exact hrec.2.1 e he
      · intro p hq
        simp only [cleanVideos, List.mem_append] at hq
        rcases hq with hq | hq
        · exact hhead.2 p hq
        · exact hrec.2.2 p hq

theorem performCleanup_full (f : Bool) (w : World) : (performCleanup f w).full = f := by
  unfold performCleanup
  by_cases hs : (w.sceneExists && w.rendererExists) = true
  · rw [if_pos hs]
    by_cases hk : (glCleanup w).2 = true
    · rw [if_pos hk]
    · rw [if_neg hk]
  · rw [if_neg hs]

theorem glCleanup_events_eq (w : World) (hw : noThrow w) :
    (glCleanup w).1 =
      (if w.texturesIsArray then disposeTextures 0 w.textures else ([], true)).1 ++
      (if w.glExists then unbindEvents w.numTextureUnits else []) ++
      (if w.gcExists then (if w.gcThrows then [Ev.gcCall, Ev.gcWarn] else [Ev.gcCall])
        else []) := by
  unfold glCleanup
  by_cases ha : w.texturesIsArray = true
  · rw [if_pos ha, if_pos (disposeTextures_ok w.textures hw 0)]
  · rw [if_neg ha]
    rw [if_pos rfl]

theorem glCleanup_eq_throw (w : World) (ha : w.texturesIsArray = true)
    (hk : (disposeTextures 0 w.textures).2 = false) :
    glCleanup w = ((disposeTextures 0 w.textures).1, false) := by
  unfold glCleanup
  rw [if_pos ha, if_neg (by simp [hk])]

theorem performCleanup_eq_renderer (f : Bool) (w : World)
    (hs : w.sceneExists = true) (hr : w.rendererExists = true) (hw : noThrow w) :
    performCleanup f w =
      { full := f,
        trace := (cleanVideos f 0 w.videos).1 ++ (glCleanup w).1 ++ (arCleanup f w).1,
        scheduled := (cleanVideos f 0 w.videos).2.1 ++ (arCleanup f w).2,
        videos := (cleanVideos f 0 w.videos).2.2, ok := true } := by
  unfold performCleanup
  rw [if_pos (by rw [hs, hr]; rfl), if_pos (glCleanup_ok w hw)]

theorem performCleanup_eq_no_renderer (f : Bool) (w : World)
    (hs : (w.sceneExists && w.rendererExists) = false) :
    performCleanup f w =
      { full := f,
        trace := (cleanVideos f 0 w.videos).1 ++ (arCleanup f w).1,
        scheduled := (cleanVideos f 0 w.videos).2.1 ++ (arCleanup f w).2,
        videos := (cleanVideos f 0 w.videos).2.2, ok := true } := by
  unfold performCleanup
  rw [if_neg (by simp [hs])]

theorem performCleanup_eq_throw (f : Bool) (w : World)
    (hs : w.sceneExists = true) (hr : w.rendererExists = true)
    (hk : (glCleanup w).2 = false) :
    performCleanup f w =
      { full := f,
        trace := (cleanVideos f 0 w.videos).1 ++ (glCleanup w).1,
        scheduled := (cleanVideos f 0 w.videos).2.1,
        videos := (cleanVideos f 0 w.videos).2.2, ok := false } := by
  unfold performCleanup
  rw [if_pos (by rw [hs, hr]; rfl), if_neg (by simp [hk])]

theorem disposeTextures_throws :
    ∀ ts : List Texture,
      (∃ t ∈ ts, t.hasDispose = true ∧ t.disposeThrows = true) →
      ∀ i, (disposeTextures i ts).2 = false := by
  intro ts
  induction ts with
  | nil =>
    intro h i
    rcases h with ⟨t, ht, _⟩
    simp at ht
  | cons t ts ih =>
    intro h i
    rcases h with ⟨u, hu, hd, hx⟩
    rcases List.mem_cons.mp hu with rfl | hmem
    · simp [disposeTextures, hd, hx]
    · by_cases hd0 : t.hasDispose = true
      · by_cases hx0 : t.disposeThrows = true
        · simp [disposeTextures, hd0, hx0]
        · simp [disposeTextures, hd0, hx0, ih ⟨u, hmem, hd, hx⟩ (i + 1)]
      · simp [disposeTextures, hd0, ih ⟨u, hmem, hd, hx⟩ (i + 1)]

theorem arCleanup_eq_caught (w : World) (hs : w.sceneExists = true)
    (har : w.arSystemExists = true) (hst : w.stopThrows = true) :
    arCleanup true w = ([Ev.arWarn], []) := by
  unfold arCleanup
  rw [if_pos (by rw [hs, har]; rfl), if_pos hst]

theorem arCleanup_eq_restart (w : World) (hs : w.sceneExists = true)
    (har : w.arSystemExists = true) (hst : w.stopThrows = false) :
    arCleanup true w = ([Ev.arStop], [(trackingRestartDelayMs, Task.arStart)]) := by
  unfold arCleanup
  rw [if_pos (by rw [hs, har]; rfl), if_neg (by simp [hst])]

theorem errorCount_nonneg_step (w : World) (s : OptState) (hn : 0 ≤ s.errorCount)
    (sig : Sig) : 0 ≤ (stepSig w s sig).errorCount := by
  cases sig with
  | lightTimer h =>
    simp only [stepSig, guardedPass]
    split <;> simp [hn]
  | fullTimer h =>
    simp only [stepSig, guardedPass]
    split <;> simp [hn]
  | heapSample tele =>
    simp only [stepSig, heapTick]
    rcases tele with _ | ⟨u, l⟩
    · exact hn
    · dsimp only
      split
      · split <;> simp [hn]
      · exact hn
  | trackingError =>
    simp only [stepSig, arErrorTick]
    split
    · split
      all_goals simp
      omega
    · split
      all_goals simp
      all_goals omega
  | visibilityChange h =>
    simp only [stepSig, visibilityTick]
    split
    all_goals exact hn
  | sessionEnd => exact hn
  | delayedTask t =>
    cases t with
    | restoreSrc i src => exact hn
    | arStart =>
      simp only [stepSig, runTask]
      split <;> simp [hn]
    | errorDecay =>
      simp only [stepSig, runTask]
      exact le_max_left 0 _

theorem errorCount_nonneg_runSigs (w : World) :
    ∀ (sigs : List Sig) (s : OptState), 0 ≤ s.errorCount →
      0 ≤ (runSigs w s sigs).errorCount := by
  intro sigs
  induction sigs with
  | nil => intro s hn; exact hn
  | cons g gs ih =>
    intro s hn
    exact ih _ (errorCount_nonneg_step w s hn g)

/-- C1, counterexample: with the in-flight guard set (`isProcessing = true`),
a visibility-lost signal is NOT dropped: the `visibilitychange` handler
invokes the Reclaimer unconditionally, and the invocation has observable
effects (a non-empty trace).  The tracking-error handler likewise runs a
pass without consulting the guard. -/
theorem c1_counterexample :
    (visibilityTick true richWorld ⟨0, true⟩).2 = some (performCleanup true richWorld) ∧
    (performCleanup true richWorld).trace ≠ [] ∧
    (arErrorTick richWorld ⟨0, true⟩).2.1.trace ≠ [] := by
  refine ⟨rfl, ?_, ?_⟩ <;> decide

/-- C1, amended: requests from the two cleanup timers and from the heap
sampler arriving while `isProcessing` is `true` are silently dropped, but
tracking-error (ErrorBurst), visibility-lost and session-end signals bypass
the guard entirely: they invoke the Reclaimer unconditionally, neither
checking nor setting `isProcessing`. -/
theorem c1_amended_guard_scope (f hidden : Bool) (w : World) (s : OptState)
    (u l : ℚ) (h : s.isProcessing = true) :
    (guardedPass f hidden w s).2 = none ∧
    heapTick (some (u, l)) w s = (s, none) ∧
    (visibilityTick true w s).2 = some (performCleanup true w) ∧
    (beforeunloadTick w s).2 = performCleanup true w ∧
    (arErrorTick w s).2.1 =
      (if s.errorCount + 1 > 3 then performCleanup true w else performCleanup false w) ∧
    (arErrorTick w s).1.isProcessing = s.isProcessing := by
  refine ⟨?_, ?_, rfl, rfl, ?_, ?_⟩
  · simp [guardedPass, h]
  · unfold heapTick
    by_cases hc : heapOver u l = true <;> simp [hc, h]
  · unfold arErrorTick
    by_cases hc : s.errorCount + 1 > 3
    · rw [if_pos hc, if_pos hc]
      by_cases hok : (performCleanup true w).ok = true <;> simp [hok]
    · rw [if_neg hc, if_neg hc]
      by_cases hok : (performCleanup false w).ok = true <;> simp [hok]
  · unfold arErrorTick
    by_cases hc : s.errorCount + 1 > 3
    · rw [if_pos hc]
      by_cases hok : (performCleanup true w).ok = true <;> simp [hok]
    · rw [if_neg hc]
      by_cases hok : (performCleanup false w).ok = true <;> simp [hok]

/-- Witness for `c1_amended_guard_scope` at a concrete in-flight state. -/
theorem c1_amended_guard_scope_witness :
    (guardedPass false false emptyWorld ⟨0, true⟩).2 = none ∧
    heapTick (some (81, 100)) emptyWorld ⟨0, true⟩ = (⟨0, true⟩, none) ∧
    (visibilityTick true emptyWorld ⟨0, true⟩).2 = some (performCleanup true emptyWorld) ∧
    (beforeunloadTick emptyWorld ⟨0, true⟩).2 = performCleanup true emptyWorld ∧
    (arErrorTick emptyWorld ⟨0, true⟩).2.1 =
      (if (0 : Int) + 1 > 3 then performCleanup true emptyWorld
        else performCleanup false emptyWorld) ∧
    (arErrorTick emptyWorld ⟨0, true⟩).1.isProcessing = true :=
  c1_amended_guard_scope false false emptyWorld ⟨0, true⟩ 81 100 rfl

/-- C2: a texture whose `dispose()` throws makes `performCleanup` throw
synchronously (`ok = false`) before returning its promise, so the timer
handler's `.finally` is never attached: the guard stays `true` after the
pass, and from then on every guarded trigger (light timer, full timer, heap
sampler) is dropped — the claim's "cleared unconditionally, subsequent
trigger accepted" fails on exactly the failure path it quantifies over. -/
theorem c2_sync_throw_wedges_guard :
    (performCleanup false throwWorld).ok = false ∧
    (guardedPass false false throwWorld ⟨0, false⟩).1 = ⟨0, true⟩ ∧
    (guardedPass false false throwWorld ⟨0, true⟩).2 = none ∧
    (guardedPass true false throwWorld ⟨0, true⟩).2 = none ∧
    heapTick (some (81, 100)) throwWorld ⟨0, true⟩ = (⟨0, true⟩, none) := by
  refine ⟨by decide, by decide, by decide, by decide, ?_⟩
  by_cases hc : heapOver 81 100 = true <;> simp [heapTick, hc]

/-- C3, counterexample: at pre-increment errorCount exactly 3, with a
texture whose `dispose()` throws, the burst does select the Full level (the
claim's trigger fires) but the `this.errorCount = 0` after the failed
`await` never runs: errorCount is 4 afterwards, not 0 — refuting
"errorCount is reset to 0 afterwards" as stated. -/
theorem c3_counterexample :
    (arErrorTick throwWorld ⟨3, false⟩).2.1.full = true ∧
    (arErrorTick throwWorld ⟨3, false⟩).1.errorCount = 4 := by
  decide

/-- C3, amended: on an ErrorBurst, `errorCount` is incremented first; a
pre-increment count of exactly 3 makes the incremented count exceed 3, so
the pass runs at Full level, and the count is then reset to 0 exactly when
the pass completes without throwing — if it throws, errorCount stays at its
incremented value (4) and no decay is registered; a pre-increment count of
0, 1 or 2 runs a Light pass and keeps the incremented count whether or not
the pass throws. -/
theorem c3_amended_error_burst_selection (w : World) (s : OptState) :
    (s.errorCount = 3 →
      (performCleanup true w).full = true ∧
      ((performCleanup true w).ok = true →
        arErrorTick w s =
          ({ s with errorCount := 0 }, performCleanup true w,
            [(errorDecayDelayMs, Task.errorDecay)])) ∧
      ((performCleanup true w).ok = false →
        arErrorTick w s =
          ({ s with errorCount := s.errorCount + 1 }, performCleanup true w, []))) ∧
    (s.errorCount = 0 ∨ s.errorCount = 1 ∨ s.errorCount = 2 →
      (performCleanup false w).full = false ∧
      ((performCleanup false w).ok = true →
        arErrorTick w s =
          ({ s with errorCount := s.errorCount + 1 }, performCleanup false w,
            [(errorDecayDelayMs, Task.errorDecay)])) ∧
      ((performCleanup false w).ok = false →
        arErrorTick w s =
          ({ s with errorCount := s.errorCount + 1 }, performCleanup false w, []))) := by
  constructor
  · intro h3
    have hgt : s.errorCount + 1 > 3 := by omega
    refine ⟨performCleanup_full true w, ?_, ?_⟩
    · intro hok
      unfold arErrorTick
      rw [if_pos hgt, if_pos hok]
    · intro hko
      unfold arErrorTick
      rw [if_pos hgt, if_neg (by simp [hko])]
  · intro h
    have hle : ¬ s.errorCount + 1 > 3 := by rcases h with h | h | h <;> omega
    refine ⟨performCleanup_full false w, ?_, ?_⟩
    · intro hok
      unfold arErrorTick
      rw [if_neg hle, if_pos hok]
    · intro hko
      unfold arErrorTick
      rw [if_neg hle, if_neg (by simp [hko])]

/-- Witness for `c3_amended_error_burst_selection`: pre-increment 3 with a
throwing pass keeps errorCount at 4; pre-increment 3 with a clean pass
selects Full and resets to 0; pre-increment 1 selects Light and keeps the
incremented count. -/
theorem c3_amended_error_burst_selection_witness :
    (performCleanup true throwWorld).full = true ∧
    arErrorTick throwWorld ⟨3, false⟩ =
      (⟨4, false⟩, performCleanup true throwWorld, []) ∧
    arErrorTick emptyWorld ⟨3, false⟩ =
      (⟨0, false⟩, performCleanup true emptyWorld, [(300000, Task.errorDecay)]) ∧
    arErrorTick emptyWorld ⟨1, false⟩ =
      (⟨2, false⟩, performCleanup false emptyWorld, [(300000, Task.errorDecay)]) := by
  have h1 := (c3_amended_error_burst_selection throwWorld ⟨3, false⟩).1 rfl
  have h2 := (c3_amended_error_burst_selection emptyWorld ⟨3, false⟩).1 rfl
  have h3 := (c3_amended_error_burst_selection emptyWorld ⟨1, false⟩).2
    (Or.inr (Or.inl rfl))
  refine ⟨h1.1, ?_, ?_, ?_⟩
  · rw [h1.2.2 (by decide)]
    decide
  · rw [h2.2.1 (by decide)]
    decide
  · rw [h3.2.1 (by decide)]
    decide

/-- C4, counterexample: an ErrorBurst whose reclamation pass throws (a
texture `dispose()` failure) schedules NO decay at all — the `setTimeout`
after the failed `await` is never reached — so the decay is not independent
of the reclamation outcome; in the over-threshold case the reset to 0 is
skipped too. -/
theorem c4_counterexample :
    (arErrorTick throwWorld ⟨0, false⟩).2.2 = [] ∧
    (arErrorTick throwWorld ⟨3, false⟩).2.2 = [] ∧
    (arErrorTick throwWorld ⟨3, false⟩).1.errorCount = 4 := by
  decide

/-- C4, amended: an ErrorBurst whose pass completes without throwing
schedules exactly one decrement-by-one decay 300 s (= 300000 ms) later,
floored at 0; a throwing pass schedules no decay.  Independently of any
outcome, `errorCount` never becomes negative under any sequence of signals
and decay firings. -/
theorem c4_amended_decay_outcome_nonneg (w : World) (s : OptState)
    (hw : noThrow w) (hn : 0 ≤ s.errorCount) :
    (arErrorTick w s).2.2 = [(errorDecayDelayMs, Task.errorDecay)] ∧
    errorDecayDelayMs = 300 * 1000 ∧
    (runTask w s Task.errorDecay).1.errorCount = max 0 (s.errorCount - 1) ∧
    0 ≤ (runTask w s Task.errorDecay).1.errorCount ∧
    (∀ sigs : List Sig, 0 ≤ (runSigs w s sigs).errorCount) := by
  refine ⟨?_, rfl, rfl, le_max_left 0 _,
    fun sigs => errorCount_nonneg_runSigs w sigs s hn⟩
  unfold arErrorTick
  by_cases hc : s.errorCount + 1 > 3
  · rw [if_pos hc, if_pos (performCleanup_ok true w hw)]
  · rw [if_neg hc, if_pos (performCleanup_ok false w hw)]

/-- Witness for `c4_amended_decay_outcome_nonneg` at a concrete state. -/
theorem c4_amended_decay_outcome_nonneg_witness :
    (arErrorTick emptyWorld ⟨0, false⟩).2.2 = [(errorDecayDelayMs, Task.errorDecay)] ∧
    errorDecayDelayMs = 300 * 1000 ∧
    (runTask emptyWorld ⟨0, false⟩ Task.errorDecay).1.errorCount = max 0 ((0 : Int) - 1) ∧
    0 ≤ (runTask emptyWorld ⟨0, false⟩ Task.errorDecay).1.errorCount ∧
    (∀ sigs : List Sig, 0 ≤ (runSigs emptyWorld ⟨0, false⟩ sigs).errorCount) :=
  c4_amended_decay_outcome_nonneg emptyWorld ⟨0, false⟩ (by decide) (by decide)

/-- C5: the heap sampler is armed only when heap telemetry exists (no
telemetry, no action); with the guard free, a tick triggers a pass exactly
when `used > limit * 0.8` holds strictly, and any pass it triggers is Full;
the poll period is 30 s. -/
theorem c5_heap_sampler (w : World) (s : OptState) (u l : ℚ)
    (h : s.isProcessing = false) :
    heapTick none w s = (s, none) ∧
    ((heapTick (some (u, l)) w s).2.isSome = true ↔ l * 0.8 < u) ∧
    (∀ r, (heapTick (some (u, l)) w s).2 = some r → r.full = true) ∧
    heapPollIntervalMs = 30 * 1000 := by
  refine ⟨rfl, ?_, ?_, rfl⟩
  · by_cases hc : l * 0.8 < u
    · simp [heapTick, heapOver, hc, h]
    · simp [heapTick, heapOver, hc]
  · intro r hr
    by_cases hc : l * 0.8 < u
    · simp [heapTick, heapOver, hc, h] at hr
      rw [← hr]
      exact performCleanup_full true w
    · simp [heapTick, heapOver, hc] at hr

/-- Witness for `c5_heap_sampler`: ratio 0.81 triggers, 0.80 and 0.79 do
not, and an absent telemetry feature does not arm. -/
theorem c5_heap_sampler_witness :
    (heapTick (some (81, 100)) emptyWorld ⟨0, false⟩).2.isSome = true ∧
    ¬ (heapTick (some (80, 100)) emptyWorld ⟨0, false⟩).2.isSome = true ∧
    ¬ (heapTick (some (79, 100)) emptyWorld ⟨0, false⟩).2.isSome = true ∧
    heapTick none emptyWorld ⟨0, false⟩ = (⟨0, false⟩, none) := by
  refine ⟨?_, ?_, ?_, (c5_heap_sampler emptyWorld ⟨0, false⟩ 0 0 rfl).1⟩
  · exact (c5_heap_sampler emptyWorld ⟨0, false⟩ 81 100 rfl).2.1.mpr (by norm_num)
  · intro hs
    have hlt := (c5_heap_sampler emptyWorld ⟨0, false⟩ 80 100 rfl).2.1.mp hs
    norm_num at hlt
  · intro hs
    have hlt := (c5_heap_sampler emptyWorld ⟨0, false⟩ 79 100 rfl).2.1.mp hs
    norm_num at hlt

/-- C6, counterexample: in a world where the GL context, the gc hint and the
AR system are all present, a single throwing texture `dispose()` in step 3
aborts everything after it: the trace stops at the media events (no unbinds,
no gc hint, no tracking stop) and the error propagates (`ok = false`) —
subsequent steps are NOT executed. -/
theorem c6_counterexample :
    throwWorld.glExists = true ∧ throwWorld.gcExists = true ∧
    throwWorld.arSystemExists = true ∧
    (performCleanup true throwWorld).trace =
      [Ev.pauseVideo 0, Ev.resetTime 0, Ev.clearSrc 0, Ev.loadVideo 0] ∧
    (performCleanup true throwWorld).ok = false := by
  decide

/-- C6, amended: failure isolation is selective, not universal.  A failing
gc hint or a failing tracking `stop()` is caught locally and does not abort
the remaining steps, but a texture `dispose()` throwing during step 3 aborts
every subsequent step (remaining unbinds, gc hint, tracking restart) and
propagates out of the Reclaimer. -/
theorem c6_amended_partial_isolation (w : World)
    (hs : w.sceneExists = true) (hr : w.rendererExists = true) :
    (w.texturesIsArray = true →
      (∃ t ∈ w.textures, t.hasDispose = true ∧ t.disposeThrows = true) →
      (performCleanup true w).ok = false ∧
      Ev.gcCall ∉ (performCleanup true w).trace ∧
      Ev.arStop ∉ (performCleanup true w).trace) ∧
    (noThrow w → w.gcExists = true → w.gcThrows = true →
      (performCleanup true w).ok = true ∧
      Ev.gcWarn ∈ (performCleanup true w).trace ∧
      (w.arSystemExists = true → w.stopThrows = false →
        Ev.arStop ∈ (performCleanup true w).trace)) ∧
    (noThrow w → w.arSystemExists = true → w.stopThrows = true →
      (performCleanup true w).ok = true ∧
      Ev.arWarn ∈ (performCleanup true w).trace) := by
  refine ⟨?_, ?_, ?_⟩
  · intro ha hex
    have hk0 : (disposeTextures 0 w.textures).2 = false :=
      disposeTextures_throws w.textures hex 0
    have hgl : glCleanup w = ((disposeTextures 0 w.textures).1, false) :=
      glCleanup_eq_throw w ha hk0
    rw [performCleanup_eq_throw true w hs hr (by rw [hgl])]
    refine ⟨rfl, ?_, ?_⟩
    · intro hmem
      dsimp only at hmem
      rw [hgl] at hmem
      rcases List.mem_append.mp hmem with hm | hm
      · have := cleanVideos_media true w.videos 0 Ev.gcCall hm
        simp [isMediaEv] at this
      · obtain ⟨j, hj⟩ := disposeTextures_events w.textures 0 Ev.gcCall hm
        simp at hj
    · intro hmem
      dsimp only at hmem
      rw [hgl] at hmem
      rcases List.mem_append.mp hmem with hm | hm
      · have := cleanVideos_media true w.videos 0 Ev.arStop hm
        simp [isMediaEv] at this
      · obtain ⟨j, hj⟩ := disposeTextures_events w.textures 0 Ev.arStop hm
        simp at hj
  · intro hw hgc hgt
    rw [performCleanup_eq_renderer true w hs hr hw]
    refine ⟨rfl, ?_, ?_⟩
    · dsimp only
      rw [glCleanup_events_eq w hw]
      simp [hgc, hgt]
    · intro har hst
      dsimp only
      simp [arCleanup_eq_restart w hs har hst]
  · intro hw har hst
    rw [performCleanup_eq_renderer true w hs hr hw]
    refine ⟨rfl, ?_⟩
    dsimp only
    simp [arCleanup_eq_caught w hs har hst]

/-- Witness for `c6_amended_partial_isolation` at the throwing world. -/
theorem c6_amended_partial_isolation_witness :
    (throwWorld.texturesIsArray = true →
      (∃ t ∈ throwWorld.textures, t.hasDispose = true ∧ t.disposeThrows = true) →
      (performCleanup true throwWorld).ok = false ∧
      Ev.gcCall ∉ (performCleanup true throwWorld).trace ∧
      Ev.arStop ∉ (performCleanup true throwWorld).trace) ∧
    (noThrow throwWorld → throwWorld.gcExists = true → throwWorld.gcThrows = true →
      (performCleanup true throwWorld).ok = true ∧
      Ev.gcWarn ∈ (performCleanup true throwWorld).trace ∧
      (throwWorld.arSystemExists = true → throwWorld.stopThrows = false →
        Ev.arStop ∈ (performCleanup true throwWorld).trace)) ∧
    (noThrow throwWorld → throwWorld.arSystemExists = true →
      throwWorld.stopThrows = true →
      (performCleanup true throwWorld).ok = true ∧
      Ev.arWarn ∈ (performCleanup true throwWorld).trace) :=
  c6_amended_partial_isolation throwWorld rfl rfl

/-- C7: a Full pass on a fully equipped, non-failing host issues its trace
as media events, then texture/GL events, then the gc hint, then the tracking
stop; every delayed source restore is registered at exactly the 100 ms
delay and the delayed tracking start at exactly the 1000 ms delay after the
pass (trace events run at pass time 0, so the restore is ≥ 100 ms after the
source clear and the start ≥ 1000 ms after the stop). -/
theorem c7_full_pass_order (w : World)
    (hs : w.sceneExists = true) (hr : w.rendererExists = true) (hw : noThrow w)
    (hgc : w.gcExists = true) (hgt : w.gcThrows = false)
    (har : w.arSystemExists = true) (hst : w.stopThrows = false) :
    ∃ A B, (performCleanup true w).trace = A ++ B ++ [Ev.gcCall, Ev.arStop] ∧
      (∀ e ∈ A, isMediaEv e = true) ∧
      (∀ e ∈ B, isGlEv e = true) ∧
      (∀ p ∈ (performCleanup true w).scheduled,
        (∃ j s0, p.2 = Task.restoreSrc j s0) → p.1 = mediaRestoreDelayMs) ∧
      (∀ p ∈ (performCleanup true w).scheduled,
        p.2 = Task.arStart → p.1 = trackingRestartDelayMs) ∧
      (trackingRestartDelayMs, Task.arStart) ∈ (performCleanup true w).scheduled ∧
      mediaRestoreDelayMs = 100 ∧ trackingRestartDelayMs = 1000 := by
  have hac := arCleanup_eq_restart w hs har hst
  have hpc := performCleanup_eq_renderer true w hs hr hw
  have hgl := glCleanup_events_eq w hw
  refine ⟨(cleanVideos true 0 w.videos).1,
    (if w.texturesIsArray then disposeTextures 0 w.textures else ([], true)).1 ++
      (if w.glExists then unbindEvents w.numTextureUnits else []),
    ?_, cleanVideos_media true w.videos 0, ?_, ?_, ?_, ?_, rfl, rfl⟩
  · rw [hpc]
    dsimp only
    rw [hgl, hac]
    dsimp only
    simp [hgc, hgt, List.append_assoc]
  · intro e he
    rcases List.mem_append.mp he with he | he
    · by_cases ha : w.texturesIsArray = true
      · rw [if_pos ha] at he
        obtain ⟨j, hj⟩ := disposeTextures_events w.textures 0 e he
        subst hj; rfl
      · rw [if_neg ha] at he; simp at he
    · by_cases hg : w.glExists = true
      · rw [if_pos hg] at he
        exact unbindEvents_gl w.numTextureUnits e he
      · rw [if_neg hg] at he; simp at he
  · intro p hp hres
    rw [hpc] at hp
    dsimp only at hp
    rw [hac] at hp
    dsimp only at hp
    rcases List.mem_append.mp hp with hp | hp
    · exact (cleanVideos_tasks true w.videos 0 p hp).1
    · simp at hp
      rcases hres with ⟨j, s0, hres⟩
      rw [hp] at hres
      simp at hres
  · intro p hp hstart
    rw [hpc] at hp
    dsimp only at hp
    rw [hac] at hp
    dsimp only at hp
    rcases List.mem_append.mp hp with hp | hp
    · obtain ⟨hdelay, j, s0, htask⟩ := cleanVideos_tasks true w.videos 0 p hp
      rw [hstart] at htask
      simp at htask
    · simp at hp
      rw [hp]
  · rw [hpc]
    dsimp only
    rw [hac]
    simp

/-- Witness for `c7_full_pass_order` at the fully equipped world. -/
theorem c7_full_pass_order_witness :
    ∃ A B, (performCleanup true richWorld).trace = A ++ B ++ [Ev.gcCall, Ev.arStop] ∧
      (∀ e ∈ A, isMediaEv e = true) ∧
      (∀ e ∈ B, isGlEv e = true) ∧
      (∀ p ∈ (performCleanup true richWorld).scheduled,
        (∃ j s0, p.2 = Task.restoreSrc j s0) → p.1 = mediaRestoreDelayMs) ∧
      (∀ p ∈ (performCleanup true richWorld).scheduled,
        p.2 = Task.arStart → p.1 = trackingRestartDelayMs) ∧
      (trackingRestartDelayMs, Task.arStart) ∈ (performCleanup true richWorld).scheduled ∧
      mediaRestoreDelayMs = 100 ∧ trackingRestartDelayMs = 1000 :=
  c7_full_pass_order richWorld rfl rfl (by decide) rfl rfl rfl rfl

/-- `richWorld` with the renderer absent (so the source's
`if (scene?.renderer)` block, which contains the `window.gc` call, is
skipped even though `window.gc` exists). -/
def noRendererWorld : World := { richWorld with rendererExists := false }

/-- C8, counterexample: with `window.gc` exposed but no renderer, NO gc hint
is requested at either level — the gc call is nested inside the renderer
block, so hint issuance is not independent of the graphics state. -/
theorem c8_counterexample :
    noRendererWorld.gcExists = true ∧
    Ev.gcCall ∉ (performCleanup false noRendererWorld).trace ∧
    Ev.gcCall ∉ (performCleanup true noRendererWorld).trace := by
  decide

/-- C8, amended: in every pass, the gc hint is requested exactly when the
host exposes one AND the scene's renderer is present (the low-level GL
context itself may be absent — no `glExists` hypothesis below); a throwing
hint call is caught (warn logged) and non-fatal; with no renderer the hint
is never requested even if exposed. -/
theorem c8_amended_gc_requires_renderer (f : Bool) (w : World) (hw : noThrow w) :
    (w.sceneExists = true → w.rendererExists = true → w.gcExists = true →
      Ev.gcCall ∈ (performCleanup f w).trace ∧
      (performCleanup f w).ok = true ∧
      (w.gcThrows = true → Ev.gcWarn ∈ (performCleanup f w).trace)) ∧
    ((w.sceneExists && w.rendererExists) = false →
      Ev.gcCall ∉ (performCleanup f w).trace) := by
  constructor
  · intro hs hr hgc
    rw [performCleanup_eq_renderer f w hs hr hw]
    refine ⟨?_, rfl, ?_⟩
    · dsimp only
      rw [glCleanup_events_eq w hw]
      by_cases hgt : w.gcThrows = true <;> simp [hgc, hgt]
    · intro hgt
      dsimp only
      rw [glCleanup_events_eq w hw]
      simp [hgc, hgt]
  · intro hsr
    rw [performCleanup_eq_no_renderer f w hsr]
    intro hmem
    dsimp only at hmem
    rcases List.mem_append.mp hmem with hm | hm
    · have := cleanVideos_media f w.videos 0 Ev.gcCall hm
      simp [isMediaEv] at this
    · rcases arCleanup_events f w Ev.gcCall hm with h | h <;> simp at h

/-- Witness for `c8_amended_gc_requires_renderer` at the equipped world. -/
theorem c8_amended_gc_requires_renderer_witness :
    (richWorld.sceneExists = true → richWorld.rendererExists = true →
      richWorld.gcExists = true →
      Ev.gcCall ∈ (performCleanup false richWorld).trace ∧
      (performCleanup false richWorld).ok = true ∧
      (richWorld.gcThrows = true → Ev.gcWarn ∈ (performCleanup false richWorld).trace)) ∧
    ((richWorld.sceneExists && richWorld.rendererExists) = false →
      Ev.gcCall ∉ (performCleanup false richWorld).trace) :=
  c8_amended_gc_requires_renderer false richWorld (by decide)

/-- `richWorld` with a tracking `start()` that throws when the delayed
restart callback eventually runs. -/
def startThrowWorld : World := { richWorld with startThrows := true }

/-- C9, counterexample: the Full pass schedules the delayed `start()`, but
when that callback runs its error escapes uncaught (`runTask` exits with
`false`) — the try/catch around `stop()` returned 1000 ms earlier and does
not cover the callback body, refuting "no error from either call propagates
out of the Reclaimer". -/
theorem c9_counterexample :
    (1000, Task.arStart) ∈ (performCleanup true startThrowWorld).scheduled ∧
    (runTask startThrowWorld ⟨0, false⟩ Task.arStart).2.2 = false := by
  decide

/-- C9, amended: errors from the synchronous `stop()` call are caught and
logged inside the Reclaimer (and then no restart is scheduled at all), but
the delayed `start()` runs outside that try/catch, so an error it throws
escapes uncaught from the scheduled callback. -/
theorem c9_amended_stop_caught_start_uncaught (w : World) (s : OptState)
    (hw : noThrow w) (hs : w.sceneExists = true) (har : w.arSystemExists = true) :
    (w.stopThrows = true →
      Ev.arWarn ∈ (performCleanup true w).trace ∧
      (performCleanup true w).ok = true ∧
      (∀ p ∈ (performCleanup true w).scheduled, p.2 ≠ Task.arStart)) ∧
    (w.stopThrows = false →
      (trackingRestartDelayMs, Task.arStart) ∈ (performCleanup true w).scheduled) ∧
    (w.startThrows = true → (runTask w s Task.arStart).2.2 = false) ∧
    (w.startThrows = false → runTask w s Task.arStart = (s, [Ev.arStart], true)) := by
  refine ⟨?_, ?_, ?_, ?_⟩
  · intro hst
    have hac := arCleanup_eq_caught w hs har hst
    by_cases hr : w.rendererExists = true
    · rw [performCleanup_eq_renderer true w hs hr hw]
      refine ⟨?_, rfl, ?_⟩
      · dsimp only
        simp [hac]
      · intro p hp
        dsimp only at hp
        rw [hac] at hp
        simp only [List.append_nil] at hp
        obtain ⟨-, j, s0, htask⟩ := cleanVideos_tasks true w.videos 0 p hp
        rw [htask]
        simp
    · have hr0 : w.rendererExists = false := by
        revert hr; cases w.rendererExists <;> simp
      have hsr : (w.sceneExists && w.rendererExists) = false := by
        rw [hr0, Bool.and_false]
      rw [performCleanup_eq_no_renderer true w hsr]
      refine ⟨?_, rfl, ?_⟩
      · dsimp only
        simp [hac]
      · intro p hp
        dsimp only at hp
        rw [hac] at hp
        simp only [List.append_nil] at hp
        obtain ⟨-, j, s0, htask⟩ := cleanVideos_tasks true w.videos 0 p hp
        rw [htask]
        simp
  · intro hst
    have hac := arCleanup_eq_restart w hs har hst
    by_cases hr : w.rendererExists = true
    · rw [performCleanup_eq_renderer true w hs hr hw]
      dsimp only
      simp [hac]
    · have hr0 : w.rendererExists = false := by
        revert hr; cases w.rendererExists <;> simp
      have hsr : (w.sceneExists && w.rendererExists) = false := by
        rw [hr0, Bool.and_false]
      rw [performCleanup_eq_no_renderer true w hsr]
      dsimp only
      simp [hac]
  · intro hx
    simp [runTask, hx]
  · intro hx
    simp [runTask, hx]

/-- Witness for `c9_amended_stop_caught_start_uncaught` at the world whose
delayed `start()` throws. -/
theorem c9_amended_stop_caught_start_uncaught_witness :
    (startThrowWorld.stopThrows = true →
      Ev.arWarn ∈ (performCleanup true startThrowWorld).trace ∧
      (performCleanup true startThrowWorld).ok = true ∧
      (∀ p ∈ (performCleanup true startThrowWorld).scheduled, p.2 ≠ Task.arStart)) ∧
    (startThrowWorld.stopThrows = false →
      (trackingRestartDelayMs, Task.arStart) ∈
        (performCleanup true startThrowWorld).scheduled) ∧
    (startThrowWorld.startThrows = true →
      (runTask startThrowWorld ⟨0, false⟩ Task.arStart).2.2 = false) ∧
    (startThrowWorld.startThrows = false →
      runTask startThrowWorld ⟨0, false⟩ Task.arStart = (⟨0, false⟩, [Ev.arStart], true)) :=
  c9_amended_stop_caught_start_uncaught startThrowWorld ⟨0, false⟩ (by decide) rfl rfl

/-- C10: a media element that is already paused when a pass runs — at either
level — is returned unchanged (same `paused`, `src`, `currentTime`), no
trace event touches it (it is not paused again, its position is not reset,
its source is not cleared), and no delayed restore is scheduled for it. -/
theorem c10_paused_video_untouched (f : Bool) (w : World) (i : Nat) (v : Video)
    (hv : w.videos[i]? = some v) (hp : v.paused = true) :
    (performCleanup f w).videos[i]? = some v ∧
    (∀ e ∈ (performCleanup f w).trace, touchesVideo i e = false) ∧
    (∀ p ∈ (performCleanup f w).scheduled, taskTouchesVideo i p.2 = false) := by
  have hm := cleanVideos_index f w.videos 0 i v hv hp
  rw [Nat.zero_add] at hm
  unfold performCleanup
  by_cases hs : (w.sceneExists && w.rendererExists) = true
  · rw [if_pos hs]
    by_cases hk : (glCleanup w).2 = true
    · rw [if_pos hk]
      refine ⟨hm.1, ?_, ?_⟩
      · intro e he
        dsimp only at he
        rcases List.mem_append.mp he with he | he
        · rcases List.mem_append.mp he with he | he
          · exact hm.2.1 e he
          · exact touchesVideo_glCleanup w i e he
        · exact touchesVideo_arCleanup f w i e he
      · intro p hq
        dsimp only at hq
        rcases List.mem_append.mp hq with hq | hq
        · exact hm.2.2 p hq
        · rw [arCleanup_tasks f w p hq]
          rfl
    · rw [if_neg hk]
      refine ⟨hm.1, ?_, ?_⟩
      · intro e he
        dsimp only at he
        rcases List.mem_append.mp he with he | he
        · exact hm.2.1 e he
        · exact touchesVideo_glCleanup w i e he
      · intro p hq
        dsimp only at hq
        exact hm.2.2 p hq
  · rw [if_neg hs]
    refine ⟨hm.1, ?_, ?_⟩
    · intro e he
      dsimp only at he
      rcases List.mem_append.mp he with he | he
      · exact hm.2.1 e he
      · exact touchesVideo_arCleanup f w i e he
    · intro p hq
      dsimp only at hq
      rcases List.mem_append.mp hq with hq | hq
      · exact hm.2.2 p hq
      · rw [arCleanup_tasks f w p hq]
        rfl

/-- `richWorld` whose single video element is already paused. -/
def pausedWorld : World :=
  { richWorld with
    videos := [{ paused := true, src := "blob:cam0", currentTime := 42 }] }

/-- Witness for `c10_paused_video_untouched` on a Full pass over a paused
video. -/
theorem c10_paused_video_untouched_witness :
    (performCleanup true pausedWorld).videos[0]? =
      some { paused := true, src := "blob:cam0", currentTime := 42 } ∧
    (∀ e ∈ (performCleanup true pausedWorld).trace, touchesVideo 0 e = false) ∧
    (∀ p ∈ (performCleanup true pausedWorld).scheduled, taskTouchesVideo 0 p.2 = false) :=
  c10_paused_video_untouched true pausedWorld 0
    { paused := true, src := "blob:cam0", currentTime := 42 } rfl rfl

end BookScan
